import Mathlib

/-!
Verification of the resilient GitHub-backed file store of `app.py`
(blogmaker): the retrying rate-limit-aware API client
(`github_api_request_with_retry`), the preflight checkers
(`check_github_api_status`, `test_github_repo_access`) and the file CRUD
routes (`list_files`, `get_file`, `manage_file`).

The Python code is embedded shallowly: the network is a parameter (each
outbound request consumes one `AttemptOutcome` supplied by the
environment), machine integers are `Nat`/`Int`, and every HTTP request
the code would issue is recorded in an explicit trace of `HttpCall`s.
-/

namespace Blogmaker

/-! ### UTF-8 and base64
`app.py` calls `content.encode` with utf-8, `base64.b64encode`,
`base64.b64decode` and `bytes.decode` with utf-8.  These library
functions are embedded as executable pure functions on byte lists. -/

/-- UTF-8 encoding of one code point (as in CPython `str.encode`). -/
def utf8EncodeCp (n : Nat) : List Nat :=
  if n < 0x80 then [n]
  else if n < 0x800 then [0xC0 + n / 64, 0x80 + n % 64]
  else if n < 0x10000 then [0xE0 + n / 4096, 0x80 + n / 64 % 64, 0x80 + n % 64]
  else [0xF0 + n / 262144, 0x80 + n / 4096 % 64, 0x80 + n / 64 % 64, 0x80 + n % 64]

/-- UTF-8 encoding of a string, as a list of byte values. -/
def utf8Encode (s : String) : List Nat :=
  (s.toList.map (fun c => utf8EncodeCp c.toNat)).flatten

/-- A UTF-8 continuation byte. -/
def isCont (b : Nat) : Bool := 0x80 ≤ b && b < 0xC0

/-- Strict UTF-8 decoding (CPython `bytes.decode` with utf-8 raises on
invalid input, modelled by `none`). -/
def utf8Decode : List Nat → Option (List Char)
  | [] => some []
  | b0 :: rest =>
    if b0 < 0x80 then
      (utf8Decode rest).map (fun cs => Char.ofNat b0 :: cs)
    else if b0 < 0xC2 then none
    else if b0 < 0xE0 then
      match rest with
      | b1 :: rest2 =>
        if isCont b1 then
          (utf8Decode rest2).map (fun cs => Char.ofNat ((b0 - 0xC0) * 64 + (b1 - 0x80)) :: cs)
        else none
      | [] => none
    else if b0 < 0xF0 then
      match rest with
      | b1 :: b2 :: rest3 =>
        if isCont b1 && isCont b2 then
          let n := (b0 - 0xE0) * 4096 + (b1 - 0x80) * 64 + (b2 - 0x80)
          if 0x800 ≤ n && !(0xD800 ≤ n && n < 0xE000) then
            (utf8Decode rest3).map (fun cs => Char.ofNat n :: cs)
          else none
        else none
      | _ => none
    else if b0 < 0xF5 then
      match rest with
      | b1 :: b2 :: b3 :: rest4 =>
        if isCont b1 && isCont b2 && isCont b3 then
          let n := (b0 - 0xF0) * 262144 + (b1 - 0x80) * 4096 + (b2 - 0x80) * 64 + (b3 - 0x80)
          if 0x10000 ≤ n && n < 0x110000 then
            (utf8Decode rest4).map (fun cs => Char.ofNat n :: cs)
          else none
        else none
      | _ => none
    else none

/-- The base64 alphabet. -/
def b64Alphabet : List Char :=
  "ABCDEFGHIJKLMNOPQRSTUVWXYZabcdefghijklmnopqrstuvwxyz0123456789+/".toList

/-- Character for a 6-bit group. -/
def b64Char (n : Nat) : Char := b64Alphabet.getD n '='

/-- Base64 encoding of a byte list (with padding), as `base64.b64encode`. -/
def b64EncodeBytes : List Nat → List Char
  | [] => []
  | [b0] =>
    let n := b0 % 256 * 65536
    [b64Char (n / 262144 % 64), b64Char (n / 4096 % 64), '=', '=']
  | [b0, b1] =>
    let n := b0 % 256 * 65536 + b1 % 256 * 256
    [b64Char (n / 262144 % 64), b64Char (n / 4096 % 64), b64Char (n / 64 % 64), '=']
  | b0 :: b1 :: b2 :: rest =>
    let n := b0 % 256 * 65536 + b1 % 256 * 256 + b2 % 256
    b64Char (n / 262144 % 64) :: b64Char (n / 4096 % 64) :: b64Char (n / 64 % 64) ::
      b64Char (n % 64) :: b64EncodeBytes rest

/-- Composition `base64.b64encode(content.encode(utf8)).decode(utf8)` of `app.py`. -/
def b64EncodeUtf8 (s : String) : String := String.mk (b64EncodeBytes (utf8Encode s))

/-- Value of one base64 alphabet character. -/
def b64CharVal (c : Char) : Option Nat :=
  if 65 ≤ c.toNat ∧ c.toNat ≤ 90 then some (c.toNat - 65)
  else if 97 ≤ c.toNat ∧ c.toNat ≤ 122 then some (c.toNat - 97 + 26)
  else if 48 ≤ c.toNat ∧ c.toNat ≤ 57 then some (c.toNat - 48 + 52)
  else if c = '+' then some 62
  else if c = '/' then some 63
  else none

/-- Bytes from a list of 6-bit groups. -/
def b64GroupsToBytes : List Nat → List Nat
  | v0 :: v1 :: v2 :: v3 :: rest =>
    let n := v0 * 262144 + v1 * 4096 + v2 * 64 + v3
    n / 65536 :: n / 256 % 256 :: n % 256 :: b64GroupsToBytes rest
  | [v0, v1, v2] =>
    let n := v0 * 4096 + v1 * 64 + v2
    [n / 1024, n / 4 % 256]
  | [v0, v1] =>
    let n := v0 * 64 + v1
    [n / 16]
  | _ => []

/-- Base64 decoding of a string to bytes, as `base64.b64decode`. -/
def b64DecodeToBytes (s : String) : Option (List Nat) :=
  ((s.toList.filter (fun c => c ≠ '=')).mapM b64CharVal).map b64GroupsToBytes

/-- Composition `base64.b64decode(x).decode(utf8)` of `app.py`; `none` models the
exception path. -/
def b64DecodeUtf8 (s : String) : Option String :=
  match b64DecodeToBytes s with
  | some bs =>
    match utf8Decode bs with
    | some cs => some (String.mk cs)
    | none => none
  | none => none

/-! ### String comparison
Python compares `str` values code point by code point; `sorted` with a
string key and `str.endswith` are embedded through char lists, since the
builtin `String`-order primitives do not reduce in the kernel. -/

/-- Code-point lexicographic less-or-equal on char lists (Python `<=`
on `str`). -/
def lexLe : List Char → List Char → Bool
  | [], _ => true
  | _ :: _, [] => false
  | a :: as, b :: bs =>
    if a.toNat < b.toNat then true
    else if b.toNat < a.toNat then false
    else lexLe as bs

/-- Python-style `<=` on strings. -/
def strLeB (a b : String) : Bool := lexLe a.toList b.toList

/-- Python `str.endswith`. -/
def strEndsWith (s suffix : String) : Bool := suffix.toList.isSuffixOf s.toList

theorem lexLe_total : ∀ as bs : List Char, lexLe as bs = true ∨ lexLe bs as = true := by
  intro as
  induction as with
  | nil => intro bs; left; rfl
  | cons a as ih =>
    intro bs
    cases bs with
    | nil => right; rfl
    | cons b bs =>
      simp only [lexLe]
      rcases Nat.lt_trichotomy a.toNat b.toNat with h | h | h
      · left; simp [h]
      · have h1 : ¬ a.toNat < b.toNat := by omega
        have h2 : ¬ b.toNat < a.toNat := by omega
        simp only [h1, h2, if_false, if_true]
        simpa using ih bs
      · right; simp [h]

theorem lexLe_trans : ∀ as bs cs : List Char,
    lexLe as bs = true → lexLe bs cs = true → lexLe as cs = true := by
  intro as
  induction as with
  | nil => intro bs cs _ _; rfl
  | cons a as ih =>
    intro bs cs hab hbc
    cases bs with
    | nil => simp [lexLe] at hab
    | cons b bs =>
      cases cs with
      | nil => simp [lexLe] at hbc
      | cons c cs =>
        simp only [lexLe] at hab hbc ⊢
        by_cases h1 : a.toNat < b.toNat
        · by_cases h2 : b.toNat < c.toNat
          · have : a.toNat < c.toNat := by omega
            simp [this]
          · simp only [h2, if_false] at hbc
            by_cases h3 : c.toNat < b.toNat
            · simp [h3] at hbc
            · have : a.toNat < c.toNat := by omega
              simp [this]
        · simp only [h1, if_false] at hab
          by_cases h4 : b.toNat < a.toNat
          · simp [h4] at hab
          · simp only [h4, if_false] at hab
            have hab' : a.toNat = b.toNat := by omega
            by_cases h2 : b.toNat < c.toNat
            · have : a.toNat < c.toNat := by omega
              simp [this]
            · simp only [h2, if_false] at hbc
              by_cases h3 : c.toNat < b.toNat
              · simp [h3] at hbc
              · simp only [h3, if_false] at hbc
                have h5 : ¬ a.toNat < c.toNat := by omega
                have h6 : ¬ c.toNat < a.toNat := by omega
                simp only [h5, h6, if_false]
                exact ih bs cs hab hbc

/-! ### The retrying, rate-limit-aware API client
`github_api_request_with_retry` of `app.py`.  The transport is a
parameter: attempt `i` of the loop observes `outcomes i`, which is
either a response (status code, the two `X-RateLimit-*` headers the code
reads, the `message` field the code would extract from the body, and the
parsed body) or one of the exceptions the code catches. -/

/-- An HTTP response as observed by the client code. -/
structure HttpResp (β : Type) where
  statusCode : Nat
  rateLimitRemainingHeader : Option String := none
  rateLimitResetHeader : Option Int := none
  bodyMessage : Option String := none
  body : β

/-- The outcome of one physical request: a response, or one of the
exception classes the code catches. -/
inductive AttemptOutcome (β : Type) where
  | resp (r : HttpResp β)
  | timeout
  | connectionError
  | unexpectedError (msg : String)

/-- The failure dictionary returned by the client. -/
structure ApiFailureInfo where
  error : String
  message : String
  statusCode : Option Nat := none
  retryAfter : Option Int := none
deriving DecidableEq

/-- Result of `github_api_request_with_retry`: the success dictionary or
the failure dictionary. -/
inductive ReqResult (β : Type) where
  | success (data : β) (statusCode : Nat)
  | failure (info : ApiFailureInfo)

/-- The `error` tag of a result (`none` on success). -/
def ReqResult.errorKind {β : Type} : ReqResult β → Option String
  | .success _ _ => none
  | .failure info => some info.error

/-- Expression `max(reset_time - current_time, 60)` of `app.py` (hard 60s floor). -/
def rateLimitWait (resetTime now : Int) : Int := max (resetTime - now) 60

/-- One iteration of the retry loop either produces a return value or
continues after sleeping. -/
inductive StepOutcome (β : Type) where
  | done (r : ReqResult β)
  | retryAfterSleep (wait : Int)

/-- The body of the `for attempt in range(max_retries)` loop of
`github_api_request_with_retry`, at a given attempt index. -/
def attemptStep {β : Type} (maxRetries backoffFactor : Nat) (now : Int) (attempt : Nat) :
    AttemptOutcome β → StepOutcome β
  | .resp r =>
    if r.statusCode = 403 ∧ r.rateLimitRemainingHeader.getD "0" = "0" then
      let resetTime := r.rateLimitResetHeader.getD 0
      let wait := rateLimitWait resetTime now
      if attempt < maxRetries - 1 then .retryAfterSleep wait
      else .done (.failure
        { error := "rate_limit_exceeded",
          message := "GitHub API rate limit exceeded. Resets in " ++ toString wait ++ " seconds.",
          retryAfter := some wait })
    else if (r.statusCode = 500 ∨ r.statusCode = 502 ∨ r.statusCode = 503 ∨ r.statusCode = 504)
        ∧ attempt < maxRetries - 1 then
      .retryAfterSleep ((backoffFactor ^ attempt : Nat) : Int)
    else if r.statusCode = 200 ∨ r.statusCode = 201 then
      .done (.success r.body r.statusCode)
    else
      .done (.failure
        { error := "api_error",
          message := r.bodyMessage.getD ("GitHub API error: " ++ toString r.statusCode),
          statusCode := some r.statusCode })
  | .timeout =>
    if attempt < maxRetries - 1 then .retryAfterSleep ((backoffFactor ^ attempt : Nat) : Int)
    else .done (.failure
      { error := "timeout",
        message := "Request timed out after multiple attempts" })
  | .connectionError =>
    if attempt < maxRetries - 1 then .retryAfterSleep ((backoffFactor ^ attempt : Nat) : Int)
    else .done (.failure
      { error := "connection_error",
        message := "Unable to connect to GitHub API after multiple attempts" })
  | .unexpectedError msg =>
    .done (.failure { error := "unexpected_error", message := "Unexpected error: " ++ msg })

/-- The retry loop from attempt `attempt` on, with `fuel` loop
iterations left (the caller keeps `attempt + fuel = maxRetries`).
Returns the value returned from inside the loop (`none` when the loop
runs out of iterations), the number of physical attempts made, and the
sleeps performed between attempts. -/
def retryLoop {β : Type} (maxRetries backoffFactor : Nat) (now : Int)
    (outcomes : Nat → AttemptOutcome β) :
    Nat → Nat → Option (ReqResult β) × Nat × List Int
  | 0, _ => (none, 0, [])
  | fuel + 1, attempt =>
    match attemptStep maxRetries backoffFactor now attempt (outcomes attempt) with
    | .done r => (some r, 1, [])
    | .retryAfterSleep w =>
      let rest := retryLoop maxRetries backoffFactor now outcomes fuel (attempt + 1)
      (rest.1, rest.2.1 + 1, w :: rest.2.2)

/-- Full run of a call: result, number of physical attempts, sleeps. -/
structure RetryTrace (β : Type) where
  result : ReqResult β
  attemptsMade : Nat
  sleeps : List Int

/-- Function `github_api_request_with_retry` of `app.py` (defaults
`max_retries=3`, `backoff_factor=2`); the trailing fall-through return
is the `max_retries_exceeded` dictionary. -/
def github_api_request_with_retry {β : Type} (maxRetries backoffFactor : Nat) (now : Int)
    (outcomes : Nat → AttemptOutcome β) : RetryTrace β :=
  match retryLoop maxRetries backoffFactor now outcomes maxRetries 0 with
  | (some r, n, s) => ⟨r, n, s⟩
  | (none, n, s) =>
    ⟨.failure
      { error := "max_retries_exceeded",
        message := "Failed after " ++ toString maxRetries ++ " attempts" }, n, s⟩

/-! ### Preflight checkers and CRUD routes
`check_github_api_status`, `test_github_repo_access`, `list_files`,
`get_file` and `manage_file` of `app.py`.  Every outbound HTTP request
the code would issue is recorded in a trace of `HttpCall`s. -/

/-- Body of the `PUT .../contents/<path>` request built by `manage_file`. -/
structure PutPayload where
  message : String
  content : String
  branch : String
  sha : Option String := none
deriving DecidableEq

/-- Body of the `DELETE .../contents/<path>` request built by `manage_file`. -/
structure DeletePayload where
  message : String
  sha : String
  branch : String
deriving DecidableEq

/-- An outbound HTTP request, as recorded in the trace. -/
inductive HttpCall where
  | get (url : String)
  | put (url : String) (payload : PutPayload)
  | delete (url : String) (payload : DeletePayload)
deriving DecidableEq

/-- Whether a recorded call mutates the remote. -/
def HttpCall.isMutation : HttpCall → Bool
  | .get _ => false
  | .put _ _ => true
  | .delete _ _ => true

/-- Parsed `resources.core` object of the `GET /rate_limit` body
(each field read with a `0` default by the code). -/
structure RateLimitCore where
  remaining : Int := 0
  limit : Int := 0
  reset : Int := 0
deriving DecidableEq

/-- Result of `check_github_api_status` (the `percentage_used` entry
feeds only a log line and no control flow, so it is not carried). -/
inductive ApiStatusResult where
  | ok (remaining limit resetTime : Int)
  | error (message : String)
deriving DecidableEq

/-- Function `check_github_api_status` of `app.py`; also returns the trace of
HTTP calls it issues. -/
def check_github_api_status (token : String) (t : AttemptOutcome RateLimitCore) :
    ApiStatusResult × List HttpCall :=
  if token = "" then (.error "No GitHub token configured", [])
  else
    let call := HttpCall.get "https://api.github.com/rate_limit"
    match t with
    | .resp r =>
      if r.statusCode = 200 then
        (.ok r.body.remaining r.body.limit r.body.reset, [call])
      else
        (.error ("GitHub API returned status " ++ toString r.statusCode), [call])
    | .timeout => (.error "GitHub API request timed out", [call])
    | .connectionError => (.error "Unable to connect to GitHub API", [call])
    | .unexpectedError m => (.error ("GitHub API check failed: " ++ m), [call])

/-- Parsed body of the `GET /repos/{owner}/{repo}` response. -/
structure RepoBody where
  fullName : String := ""
  pull : Bool := false
  push : Bool := false
  admin : Bool := false
  defaultBranch : String := "main"
deriving DecidableEq

/-- Result of `test_github_repo_access`. -/
inductive RepoAccessResult where
  | ok (repoName : String) (read write admin : Bool) (defaultBranch : String)
  | error (message : String)
deriving DecidableEq

/-- Function `test_github_repo_access` of `app.py`; its only exception handler is
the generic one, so timeouts and connection errors land there too. -/
def test_github_repo_access (user repo token : String) (t : AttemptOutcome RepoBody) :
    RepoAccessResult × List HttpCall :=
  if user = "" ∨ repo = "" then (.error "Repository details not configured", [])
  else if token = "" then (.error "GitHub token not configured", [])
  else
    let call := HttpCall.get ("https://api.github.com/repos/" ++ user ++ "/" ++ repo)
    match t with
    | .resp r =>
      if r.statusCode = 200 then
        (.ok r.body.fullName r.body.pull r.body.push r.body.admin r.body.defaultBranch, [call])
      else if r.statusCode = 404 then (.error "Repository not found or no access", [call])
      else if r.statusCode = 403 then (.error "Access forbidden - check token permissions", [call])
      else (.error ("Repository access failed with status " ++ toString r.statusCode), [call])
    | .timeout => (.error "Repository access test failed: timeout", [call])
    | .connectionError => (.error "Repository access test failed: connection error", [call])
    | .unexpectedError m => (.error ("Repository access test failed: " ++ m), [call])

/-- One entry of the repository directory listing body. -/
structure DirEntry where
  name : String
  path : String
  sha : String
  type : String
deriving DecidableEq

/-- The `{name, path, sha}` record the list route returns per file. -/
structure FileRecord where
  name : String
  path : String
  sha : String
deriving DecidableEq

/-- Result of the `/api/files` route. -/
inductive ListFilesResult where
  | ok (files : List FileRecord)
  | error (message : String) (status : Nat)
deriving DecidableEq

/-- Name order used by `sorted(files, key=lambda x: x[name])`. -/
def recordLe (a b : FileRecord) : Prop := strLeB a.name b.name = true

instance : DecidableRel recordLe := fun a b => instDecidableEqBool (strLeB a.name b.name) true

instance : IsTotal FileRecord recordLe :=
  ⟨fun a b => lexLe_total a.name.toList b.name.toList⟩

instance : IsTrans FileRecord recordLe :=
  ⟨fun _ _ _ => lexLe_trans _ _ _⟩

/-- Route `list_files` of `app.py` (`/api/files`): filter the directory
listing to `.md` files and sort by name (Python `sorted` is a stable
sort; `insertionSort` is one). -/
def list_files (isAdmin : Bool) (status : Nat) (entries : List DirEntry) : ListFilesResult :=
  if isAdmin = false then .error "Not authenticated" 401
  else if status ≠ 200 then .error "Failed to fetch repo contents" status
  else
    let files := (entries.filter
        (fun i => i.type == "file" && strEndsWith i.name ".md")).map
      (fun i => FileRecord.mk i.name i.path i.sha)
    .ok (List.insertionSort recordLe files)

/-- Parsed body of the file contents response (`content` read with an
empty-string default). -/
structure FileBody where
  content : String := ""
deriving DecidableEq

/-- Result of the `/api/file/<path>` GET route. -/
inductive GetFileResult where
  | ok (content : String)
  | decodeFailure
  | error (message : String) (status : Nat)
deriving DecidableEq

/-- Route `get_file` of `app.py` (`/api/file/<path>`); `decodeFailure` is the
unhandled-exception path of `base64.b64decode(...).decode(utf8)`. -/
def get_file (isAdmin : Bool) (user repo branch filepath : String)
    (status : Nat) (body : FileBody) : GetFileResult × List HttpCall :=
  if isAdmin = false then (.error "Not authenticated" 401, [])
  else
    let url := "https://api.github.com/repos/" ++ user ++ "/" ++ repo ++ "/contents/" ++
      filepath ++ "?ref=" ++ branch
    if status ≠ 200 then (.error "Failed to fetch file content" status, [HttpCall.get url])
    else
      match b64DecodeUtf8 body.content with
      | some c => (.ok c, [HttpCall.get url])
      | none => (.decodeFailure, [HttpCall.get url])

/-! ### `manage_file` (`/api/file`, POST and DELETE) -/

/-- The two methods the route accepts. -/
inductive MFMethod where
  | post
  | delete
deriving DecidableEq

/-- The JSON response of the route, together with its HTTP status. -/
structure MFResponse (β : Type) where
  httpStatus : Nat
  errorField : Option String := none
  messageField : Option String := none
  suggestion : Option String := none
  retryAfter : Option Int := none
  data : Option β := none

/-- The configuration read from the config provider at call time. -/
structure GhConfig where
  user : String
  repo : String
  branch : String
  token : String
deriving DecidableEq

/-- The environment of one `manage_file` call: session state, config,
and the transport behavior for the two preflight GETs and for each
attempt of the mutating request. -/
structure GhEnv (β : Type) where
  isAdmin : Bool
  config : GhConfig
  rateLimitT : AttemptOutcome RateLimitCore
  repoT : AttemptOutcome RepoBody
  mutOutcomes : Nat → AttemptOutcome β
  now : Int

/-- Python truthiness of the optional `sha` field (`None` and the empty
string are falsy). -/
def truthy (s : Option String) : Bool :=
  match s with
  | none => false
  | some x => x ≠ ""

/-- The result-handling tail of `manage_file`: map the retry-client
result to the JSON response and HTTP status the route returns. -/
def handleResult {β : Type} (r : ReqResult β) : MFResponse β :=
  match r with
  | .success data statusCode => { httpStatus := statusCode, data := some data }
  | .failure info =>
    if info.error = "rate_limit_exceeded" then
      { httpStatus := 429, errorField := some info.error, messageField := some info.message,
        suggestion := some ("Wait " ++ toString (info.retryAfter.getD 60) ++
          " seconds and try again") }
    else if info.error = "timeout" then
      { httpStatus := 504, errorField := some info.error, messageField := some info.message,
        suggestion := some "GitHub API is slow. Try again in a few moments." }
    else if info.error = "connection_error" then
      { httpStatus := 503, errorField := some info.error, messageField := some info.message,
        suggestion := some "Check your internet connection and try again." }
    else if info.error = "api_error" then
      let statusCode := info.statusCode.getD 500
      let sugg :=
        if statusCode = 404 then "File or repository not found. Check the path and try again."
        else if statusCode = 403 then "Access denied. Check your token permissions."
        else if statusCode = 409 then "File conflict. Refresh and try again."
        else "GitHub API error. Please try again."
      { httpStatus := statusCode, errorField := some info.error,
        messageField := some info.message, suggestion := some sugg }
    else
      { httpStatus := 500, errorField := some info.error, messageField := some info.message,
        suggestion := some "An unexpected error occurred. Please try again." }

/-- Route `manage_file` of `app.py`: the create-or-update (POST) and delete
(DELETE) route, with its pre-flight checks, returning the JSON response
and the trace of HTTP calls issued (requests appear in issue order). -/
def manage_file {β : Type} (env : GhEnv β) (method : MFMethod) (path : String)
    (sha : Option String) (content : String) : MFResponse β × List HttpCall :=
  if env.isAdmin = false then
    ({ httpStatus := 401, errorField := some "Not authenticated" }, [])
  else if env.config.user = "" ∨ env.config.repo = "" then
    ({ httpStatus := 400, errorField := some "GitHub configuration incomplete",
       messageField := some "GitHub username or repository not configured",
       suggestion := some "Please check your settings" }, [])
  else if env.config.token = "" then
    ({ httpStatus := 400, errorField := some "GitHub token missing",
       messageField := some "GitHub token not configured",
       suggestion := some "Please add a valid GitHub Personal Access Token in settings" }, [])
  else
    let apiStatus := check_github_api_status env.config.token env.rateLimitT
    match apiStatus with
    | (.error msg, calls1) =>
      ({ httpStatus := 503, errorField := some "GitHub API unavailable",
         messageField := some msg,
         suggestion := some "Please try again later" }, calls1)
    | (.ok remaining _limit resetTime, calls1) =>
      if remaining < 10 then
        ({ httpStatus := 429, errorField := some "Rate limit nearly exceeded",
           messageField := some ("Only " ++ toString remaining ++
             " GitHub API requests remaining"),
           suggestion := some ("Rate limit resets at " ++ toString resetTime),
           retryAfter := some resetTime }, calls1)
      else
        let repoAccess := test_github_repo_access env.config.user env.config.repo
          env.config.token env.repoT
        match repoAccess with
        | (.error msg, calls2) =>
          ({ httpStatus := 403, errorField := some "Repository access failed",
             messageField := some msg,
             suggestion := some "Check repository name and token permissions" },
           calls1 ++ calls2)
        | (.ok _ _ canWrite _ _, calls2) =>
          if canWrite = false then
            ({ httpStatus := 403, errorField := some "Insufficient permissions",
               messageField :=
                 some "Your GitHub token does not have write access to this repository",
               suggestion :=
                 some "Update your Personal Access Token with appropriate permissions" },
             calls1 ++ calls2)
          else
            let apiUrl := "https://api.github.com/repos/" ++ env.config.user ++ "/" ++
              env.config.repo ++ "/contents/" ++ path
            match method with
            | .post =>
              let payload : PutPayload :=
                { message := "docs: update " ++ path,
                  content := b64EncodeUtf8 content,
                  branch := env.config.branch,
                  sha := if truthy sha then sha else none }
              let t := github_api_request_with_retry 3 2 env.now env.mutOutcomes
              (handleResult t.result,
               calls1 ++ calls2 ++ List.replicate t.attemptsMade (HttpCall.put apiUrl payload))
            | .delete =>
              if truthy sha = false then
                ({ httpStatus := 400, errorField := some "SHA required",
                   messageField := some "File SHA is required for deletion",
                   suggestion := some "Refresh the file list and try again" },
                 calls1 ++ calls2)
              else
                let payload : DeletePayload :=
                  { message := "docs: delete " ++ path,
                    sha := sha.getD "",
                    branch := env.config.branch }
                let t := github_api_request_with_retry 3 2 env.now env.mutOutcomes
                (handleResult t.result,
                 calls1 ++ calls2 ++
                   List.replicate t.attemptsMade (HttpCall.delete apiUrl payload))

/-! ### Lemmas about the retry loop -/

/-- A transient outcome in the sense of the retry policy: transport
timeout, connection failure, or a 5xx response. -/
def transientOutcome {β : Type} : AttemptOutcome β → Prop
  | .resp r => r.statusCode = 500 ∨ r.statusCode = 502 ∨ r.statusCode = 503 ∨ r.statusCode = 504
  | .timeout => True
  | .connectionError => True
  | .unexpectedError _ => False

theorem attemptStep_retry_lt {β : Type} (m b : Nat) (now : Int) (a : Nat)
    (o : AttemptOutcome β) (w : Int)
    (h : attemptStep m b now a o = .retryAfterSleep w) : a < m - 1 := by
  cases o with
  | resp r =>
    simp only [attemptStep] at h
    split_ifs at h with h1 h2 h3 h4 <;> first
      | exact h2
      | exact h4.2
      | omega
  | timeout =>
    simp only [attemptStep] at h
    split_ifs at h with h1
    exact h1
  | connectionError =>
    simp only [attemptStep] at h
    split_ifs at h with h1
    exact h1
  | unexpectedError msg => simp [attemptStep] at h

theorem attemptStep_done_kind {β : Type} (m b : Nat) (now : Int) (a : Nat)
    (o : AttemptOutcome β) (r : ReqResult β)
    (h : attemptStep m b now a o = .done r) :
    r.errorKind ≠ some "max_retries_exceeded" := by
  cases o with
  | resp rr =>
    simp only [attemptStep] at h
    split_ifs at h with h1 h2 h3 h4 <;> (injection h with h; subst h; simp [ReqResult.errorKind])
  | timeout =>
    simp only [attemptStep] at h
    split_ifs at h with h1
    injection h with h; subst h; simp [ReqResult.errorKind]
  | connectionError =>
    simp only [attemptStep] at h
    split_ifs at h with h1
    injection h with h; subst h; simp [ReqResult.errorKind]
  | unexpectedError msg =>
    simp only [attemptStep] at h
    injection h with h; subst h; simp [ReqResult.errorKind]

theorem attemptStep_transient {β : Type} (m b : Nat) (now : Int) (a : Nat)
    (o : AttemptOutcome β) (ht : transientOutcome o) (ha : a < m - 1) :
    attemptStep m b now a o = .retryAfterSleep ((b ^ a : Nat) : Int) := by
  cases o with
  | resp r =>
    have h5 : r.statusCode = 500 ∨ r.statusCode = 502 ∨ r.statusCode = 503 ∨
        r.statusCode = 504 := ht
    have h403 : ¬ (r.statusCode = 403 ∧ r.rateLimitRemainingHeader.getD "0" = "0") := by
      rintro ⟨h, -⟩; omega
    simp only [attemptStep, h403, if_false]
    rw [if_pos ⟨h5, ha⟩]
  | timeout => simp [attemptStep, ha]
  | connectionError => simp [attemptStep, ha]
  | unexpectedError msg => exact absurd ht id

theorem attemptStep_success {β : Type} (m b : Nat) (now : Int) (a : Nat)
    (r : HttpResp β) (h2xx : r.statusCode = 200 ∨ r.statusCode = 201) :
    attemptStep m b now a (.resp r) = .done (.success r.body r.statusCode) := by
  have h403 : ¬ (r.statusCode = 403 ∧ r.rateLimitRemainingHeader.getD "0" = "0") := by
    rintro ⟨h, -⟩; omega
  have h5 : ¬ ((r.statusCode = 500 ∨ r.statusCode = 502 ∨ r.statusCode = 503 ∨
      r.statusCode = 504) ∧ a < m - 1) := by
    rintro ⟨h, -⟩; omega
  simp only [attemptStep, h403, if_false, h5]
  rw [if_pos h2xx]

theorem retryLoop_isSome {β : Type} (m b : Nat) (now : Int)
    (outcomes : Nat → AttemptOutcome β) :
    ∀ fuel attempt, attempt + fuel = m → 1 ≤ fuel →
      ∃ r n s, retryLoop m b now outcomes fuel attempt = (some r, n, s) ∧
        r.errorKind ≠ some "max_retries_exceeded" := by
  intro fuel
  induction fuel with
  | zero => intro attempt _ h1; omega
  | succ fuel ih =>
    intro attempt hsum _
    cases hstep : attemptStep m b now attempt (outcomes attempt) with
    | done r =>
      exact ⟨r, 1, [], by simp [retryLoop, hstep],
        attemptStep_done_kind m b now attempt _ r hstep⟩
    | retryAfterSleep w =>
      have hlt : attempt < m - 1 := attemptStep_retry_lt m b now attempt _ w hstep
      have hfuel : 1 ≤ fuel := by omega
      obtain ⟨r, n, s, hr, hk⟩ := ih (attempt + 1) (by omega) hfuel
      exact ⟨r, n + 1, w :: s, by simp [retryLoop, hstep, hr], hk⟩

theorem retryLoop_rateLimited {β : Type} (m b : Nat) (now : Int)
    (outcomes : Nat → AttemptOutcome β) (r : HttpResp β)
    (hout : ∀ i, outcomes i = .resp r)
    (h403 : r.statusCode = 403) (hrem : r.rateLimitRemainingHeader.getD "0" = "0") :
    ∀ fuel attempt, attempt + fuel = m → 1 ≤ fuel →
      retryLoop m b now outcomes fuel attempt =
        (some (.failure
          { error := "rate_limit_exceeded",
            message := "GitHub API rate limit exceeded. Resets in " ++
              toString (rateLimitWait (r.rateLimitResetHeader.getD 0) now) ++ " seconds.",
            retryAfter := some (rateLimitWait (r.rateLimitResetHeader.getD 0) now) }),
         fuel, List.replicate (fuel - 1) (rateLimitWait (r.rateLimitResetHeader.getD 0) now)) := by
  intro fuel
  induction fuel with
  | zero => intro attempt _ h1; omega
  | succ fuel ih =>
    intro attempt hsum _
    rcases Nat.eq_zero_or_pos fuel with hf | hf
    · subst hf
      have hnlt : ¬ attempt < m - 1 := by omega
      have hstep : attemptStep m b now attempt (outcomes attempt) = .done (.failure
          { error := "rate_limit_exceeded",
            message := "GitHub API rate limit exceeded. Resets in " ++
              toString (rateLimitWait (r.rateLimitResetHeader.getD 0) now) ++ " seconds.",
            retryAfter := some (rateLimitWait (r.rateLimitResetHeader.getD 0) now) }) := by
        rw [hout attempt]
        simp only [attemptStep]
        rw [if_pos ⟨h403, hrem⟩]
        simp [hnlt]
      simp [retryLoop, hstep]
    · have hlt : attempt < m - 1 := by omega
      have hstep : attemptStep m b now attempt (outcomes attempt) =
          .retryAfterSleep (rateLimitWait (r.rateLimitResetHeader.getD 0) now) := by
        rw [hout attempt]
        simp only [attemptStep]
        rw [if_pos ⟨h403, hrem⟩]
        simp [hlt]
      have hrep : fuel + 1 - 1 = (fuel - 1) + 1 := by omega
      simp [retryLoop, hstep, ih (attempt + 1) (by omega) hf, hrep, List.replicate_succ]

theorem retryLoop_transient_then_success {β : Type} (m b : Nat) (now : Int)
    (outcomes : Nat → AttemptOutcome β) (r : HttpResp β)
    (h2xx : r.statusCode = 200 ∨ r.statusCode = 201) :
    ∀ k fuel attempt, attempt + fuel = m → attempt + k < m →
      (∀ i, i < k → transientOutcome (outcomes (attempt + i))) →
      outcomes (attempt + k) = .resp r →
      retryLoop m b now outcomes fuel attempt =
        (some (.success r.body r.statusCode), k + 1,
         (List.range' attempt k).map (fun i => ((b ^ i : Nat) : Int))) := by
  intro k
  induction k with
  | zero =>
    intro fuel attempt hsum hklt _ hsucc
    cases fuel with
    | zero => omega
    | succ fuel =>
      have hstep : attemptStep m b now attempt (outcomes attempt) =
          .done (.success r.body r.statusCode) := by
        rw [show attempt = attempt + 0 from rfl, hsucc]
        exact attemptStep_success m b now attempt r h2xx
      simp [retryLoop, hstep]
  | succ k ih =>
    intro fuel attempt hsum hklt htrans hsucc
    cases fuel with
    | zero => omega
    | succ fuel =>
      have hlt : attempt < m - 1 := by omega
      have htr0 : transientOutcome (outcomes attempt) := by
        have := htrans 0 (by omega)
        simpa using this
      have hstep : attemptStep m b now attempt (outcomes attempt) =
          .retryAfterSleep ((b ^ attempt : Nat) : Int) :=
        attemptStep_transient m b now attempt _ htr0 hlt
      have hrec := ih fuel (attempt + 1) (by omega) (by omega)
        (fun i hi => by
          have := htrans (i + 1) (by omega)
          simpa [Nat.add_assoc, Nat.add_comm 1 i] using this)
        (by
          have : attempt + 1 + k = attempt + (k + 1) := by omega
          rw [this, hsucc])
      simp [retryLoop, hstep, hrec, List.range']

/-- The failure dictionary of an exhausted-timeouts run. -/
def timeoutFailure : ApiFailureInfo :=
  { error := "timeout", message := "Request timed out after multiple attempts" }

/-- The failure dictionary of an exhausted-connection-errors run. -/
def connErrorFailure : ApiFailureInfo :=
  { error := "connection_error",
    message := "Unable to connect to GitHub API after multiple attempts" }

theorem retryLoop_transport_exhausted {β : Type} (m b : Nat) (now : Int)
    (outcomes : Nat → AttemptOutcome β) :
    ∀ fuel attempt, attempt + fuel = m → 1 ≤ fuel →
      (∀ i, attempt ≤ i → i < m → outcomes i = .timeout ∨ outcomes i = .connectionError) →
      (retryLoop m b now outcomes fuel attempt).1 = some (.failure timeoutFailure) ∨
      (retryLoop m b now outcomes fuel attempt).1 = some (.failure connErrorFailure) := by
  intro fuel
  induction fuel with
  | zero => intro attempt _ h1; omega
  | succ fuel ih =>
    intro attempt hsum _ hout
    rcases Nat.eq_zero_or_pos fuel with hf | hf
    · subst hf
      have hnlt : ¬ attempt < m - 1 := by omega
      rcases hout attempt (le_refl _) (by omega) with h | h
      · left
        have hstep : attemptStep m b now attempt (outcomes attempt) =
            .done (.failure timeoutFailure) := by
          rw [h]; simp [attemptStep, hnlt, timeoutFailure]
        simp [retryLoop, hstep]
      · right
        have hstep : attemptStep m b now attempt (outcomes attempt) =
            .done (.failure connErrorFailure) := by
          rw [h]; simp [attemptStep, hnlt, connErrorFailure]
        simp [retryLoop, hstep]
    · have hlt : attempt < m - 1 := by omega
      have hstep : attemptStep m b now attempt (outcomes attempt) =
          .retryAfterSleep ((b ^ attempt : Nat) : Int) := by
        rcases hout attempt (le_refl _) (by omega) with h | h <;>
          (rw [h]; simp [attemptStep, hlt])
      have hrec := ih (attempt + 1) (by omega) hf
        (fun i hi him => hout i (by omega) him)
      rcases hrec with h | h
      · left; simp [retryLoop, hstep, h]
      · right; simp [retryLoop, hstep, h]

/-- The `retry_after` field of a result (`none` when absent). -/
def ReqResult.retryAfterHint {β : Type} : ReqResult β → Option Int
  | .success _ _ => none
  | .failure info => info.retryAfter

theorem github_result_of_fst {β : Type} (m b : Nat) (now : Int)
    (outcomes : Nat → AttemptOutcome β) (r : ReqResult β)
    (h : (retryLoop m b now outcomes m 0).1 = some r) :
    (github_api_request_with_retry m b now outcomes).result = r := by
  rcases hp : retryLoop m b now outcomes m 0 with ⟨fst, n, s⟩
  rw [hp] at h
  simp only at h
  subst h
  simp [github_api_request_with_retry, hp]

/-! ### The claims -/

/-- Claim C3: for every response with status 403 whose rate-limit-remaining
header reads 0, the client computes the retry/report wait as
max(resetEpoch - now, 60) seconds; with remaining=0 and reset = now+30 the
computed wait is 60 seconds, and when no attempts remain it returns
Failure(rate_limit_exceeded) carrying that wait as retryAfter. -/
theorem claim_C3_rate_limit_wait {β : Type} (m b : Nat) (hm : 1 ≤ m) (now : Int)
    (outcomes : Nat → AttemptOutcome β) (r : HttpResp β)
    (hout : ∀ i, outcomes i = .resp r)
    (h403 : r.statusCode = 403) (hrem : r.rateLimitRemainingHeader.getD "0" = "0") :
    (github_api_request_with_retry m b now outcomes).result.errorKind =
        some "rate_limit_exceeded" ∧
    (github_api_request_with_retry m b now outcomes).result.retryAfterHint =
        some (rateLimitWait (r.rateLimitResetHeader.getD 0) now) ∧
    (github_api_request_with_retry m b now outcomes).sleeps =
        List.replicate (m - 1) (rateLimitWait (r.rateLimitResetHeader.getD 0) now) ∧
    rateLimitWait (r.rateLimitResetHeader.getD 0) now =
        max (r.rateLimitResetHeader.getD 0 - now) 60 ∧
    (r.rateLimitResetHeader.getD 0 = now + 30 →
        rateLimitWait (r.rateLimitResetHeader.getD 0) now = 60) := by
  have hloop := retryLoop_rateLimited m b now outcomes r hout h403 hrem m 0 (by omega) hm
  refine ⟨?_, ?_, ?_, rfl, ?_⟩
  · rw [github_result_of_fst m b now outcomes _ (by rw [hloop])]
    simp [ReqResult.errorKind]
  · rw [github_result_of_fst m b now outcomes _ (by rw [hloop])]
    simp [ReqResult.retryAfterHint]
  · simp [github_api_request_with_retry, hloop]
  · intro h
    rw [h]
    simp [rateLimitWait]

/-- Claim C3 witness: three attempts, all answered 403 with remaining 0 and
reset 30 seconds from now 0; the final failure is rate-limited with a 60
second hint and both sleeps were 60 seconds. -/
theorem claim_C3_witness :
    (github_api_request_with_retry 3 2 0
        (fun _ => AttemptOutcome.resp ⟨403, some "0", some 30, none, (0 : Nat)⟩)).result.errorKind =
      some "rate_limit_exceeded" ∧
    (github_api_request_with_retry 3 2 0
        (fun _ => AttemptOutcome.resp ⟨403, some "0", some 30, none, (0 : Nat)⟩)).result.retryAfterHint =
      some 60 ∧
    (github_api_request_with_retry 3 2 0
        (fun _ => AttemptOutcome.resp ⟨403, some "0", some 30, none, (0 : Nat)⟩)).sleeps =
      [60, 60] := by
  have h := claim_C3_rate_limit_wait 3 2 (by decide) 0
    (fun _ => AttemptOutcome.resp ⟨403, some "0", some 30, none, (0 : Nat)⟩)
    ⟨403, some "0", some 30, none, (0 : Nat)⟩ (fun _ => rfl) rfl rfl
  have hw : rateLimitWait ((some (30 : Int)).getD 0) 0 = 60 := by
    simp [rateLimitWait]
  refine ⟨h.1, ?_, ?_⟩
  · rw [h.2.1, hw]
  · rw [h.2.2.1, hw]
    rfl

/-- Claim C4: every sequence of transient failures (timeout, connection
error, 5xx) strictly shorter than the retry budget followed by a success
makes execute return Success with exactly N = k+1 physical attempts
(N ≤ budget), sleeping backoffFactor^attempt seconds between attempts
(factor 2: 1s, 2s, 4s); a budget exhausted on transport failures returns
Failure(timeout) or Failure(connection_error). -/
theorem claim_C4_transient_retry {β : Type} (m b : Nat) (now : Int)
    (outcomes : Nat → AttemptOutcome β) :
    (∀ k (r : HttpResp β), k < m → (∀ i, i < k → transientOutcome (outcomes i)) →
      outcomes k = .resp r → (r.statusCode = 200 ∨ r.statusCode = 201) →
      (github_api_request_with_retry m b now outcomes).result = .success r.body r.statusCode ∧
      (github_api_request_with_retry m b now outcomes).attemptsMade = k + 1 ∧
      k + 1 ≤ m ∧
      (github_api_request_with_retry m b now outcomes).sleeps =
        (List.range k).map (fun i => ((b ^ i : Nat) : Int))) ∧
    (1 ≤ m → (∀ i, i < m → outcomes i = .timeout ∨ outcomes i = .connectionError) →
      (github_api_request_with_retry m b now outcomes).result = .failure timeoutFailure ∨
      (github_api_request_with_retry m b now outcomes).result = .failure connErrorFailure) ∧
    (List.range 3).map (fun i => ((2 ^ i : Nat) : Int)) = [1, 2, 4] := by
  refine ⟨?_, ?_, by decide⟩
  · intro k r hk htrans hsucc h2xx
    have hloop := retryLoop_transient_then_success m b now outcomes r h2xx k m 0
      (by omega) (by omega) (fun i hi => by simpa using htrans i hi) (by simpa using hsucc)
    refine ⟨github_result_of_fst m b now outcomes _ (by rw [hloop]), ?_, by omega, ?_⟩
    · simp [github_api_request_with_retry, hloop]
    · simp [github_api_request_with_retry, hloop, List.range_eq_range']
  · intro hm hout
    have hloop := retryLoop_transport_exhausted m b now outcomes m 0 (by omega) hm
      (fun i _ him => hout i him)
    rcases hloop with h | h
    · exact Or.inl (github_result_of_fst m b now outcomes _ h)
    · exact Or.inr (github_result_of_fst m b now outcomes _ h)

/-- Claim C4 witness: with budget 3 and factor 2, two timeouts followed by
a 200 response give Success after exactly 3 attempts with sleeps 1s, 2s;
and three straight timeouts give Failure(timeout). -/
theorem claim_C4_witness :
    ((github_api_request_with_retry 3 2 0
        (fun i => if i < 2 then AttemptOutcome.timeout
          else .resp ⟨200, none, none, none, (7 : Nat)⟩)).result = .success 7 200 ∧
      (github_api_request_with_retry 3 2 0
        (fun i => if i < 2 then AttemptOutcome.timeout
          else .resp ⟨200, none, none, none, (7 : Nat)⟩)).attemptsMade = 3 ∧
      (github_api_request_with_retry 3 2 0
        (fun i => if i < 2 then AttemptOutcome.timeout
          else .resp ⟨200, none, none, none, (7 : Nat)⟩)).sleeps = [1, 2]) ∧
    ((github_api_request_with_retry 3 2 0
        (fun _ => (AttemptOutcome.timeout : AttemptOutcome Nat))).result =
        .failure timeoutFailure ∨
      (github_api_request_with_retry 3 2 0
        (fun _ => (AttemptOutcome.timeout : AttemptOutcome Nat))).result =
        .failure connErrorFailure) := by
  constructor
  · have h := (claim_C4_transient_retry 3 2 0
      (fun i => if i < 2 then AttemptOutcome.timeout
        else .resp ⟨200, none, none, none, (7 : Nat)⟩)).1 2
      ⟨200, none, none, none, (7 : Nat)⟩ (by omega)
      (fun i hi => by simp [hi, transientOutcome]) (by norm_num) (Or.inl rfl)
    refine ⟨h.1, h.2.1, ?_⟩
    rw [h.2.2.2]
    decide
  · exact (claim_C4_transient_retry 3 2 0
      (fun _ => (AttemptOutcome.timeout : AttemptOutcome Nat))).2.1 (by decide)
      (fun i _ => Or.inl rfl)

/-- Claim C10: for every retry budget of at least one attempt and every
sequence of transport outcomes, the client returns a result produced
inside its attempt loop, so the trailing fall-through branch returning
max_retries_exceeded is unreachable. -/
theorem claim_C10_loop_returns {β : Type} (m b : Nat) (hm : 1 ≤ m) (now : Int)
    (outcomes : Nat → AttemptOutcome β) :
    ∃ r, (retryLoop m b now outcomes m 0).1 = some r ∧
      (github_api_request_with_retry m b now outcomes).result = r ∧
      r.errorKind ≠ some "max_retries_exceeded" := by
  obtain ⟨r, n, s, hr, hk⟩ := retryLoop_isSome m b now outcomes m 0 (by omega) hm
  exact ⟨r, by rw [hr], github_result_of_fst m b now outcomes r (by rw [hr]), hk⟩

/-- Claim C10 witness: at the default budget of 3, a run of timeouts still
returns from inside the loop and not the max_retries_exceeded tail. -/
theorem claim_C10_witness :
    ∃ r, (retryLoop 3 2 0 (fun _ => (AttemptOutcome.timeout : AttemptOutcome Nat)) 3 0).1 =
        some r ∧
      (github_api_request_with_retry 3 2 0
        (fun _ => (AttemptOutcome.timeout : AttemptOutcome Nat))).result = r ∧
      r.errorKind ≠ some "max_retries_exceeded" :=
  claim_C10_loop_returns 3 2 (by decide) 0 (fun _ => AttemptOutcome.timeout)

/-- Claim C7: for every directory listing, list_files returns exactly the
entries of type "file" whose name ends in ".md", as records
(name, path, sha), sorted by name ascending; a directory containing
a.md, notes.txt, b.md yields a.md then b.md. -/
theorem claim_C7_list_files (entries : List DirEntry) :
    (∃ fs, list_files true 200 entries = .ok fs ∧
      fs.Perm ((entries.filter
          (fun i => i.type == "file" && strEndsWith i.name ".md")).map
        (fun i => FileRecord.mk i.name i.path i.sha)) ∧
      List.Pairwise recordLe fs) ∧
    list_files true 200
        [⟨"a.md", "a.md", "s1", "file"⟩, ⟨"notes.txt", "notes.txt", "s2", "file"⟩,
         ⟨"b.md", "b.md", "s3", "file"⟩] =
      .ok [⟨"a.md", "a.md", "s1"⟩, ⟨"b.md", "b.md", "s3"⟩] := by
  refine ⟨⟨List.insertionSort recordLe ((entries.filter
      (fun i => i.type == "file" && strEndsWith i.name ".md")).map
    (fun i => FileRecord.mk i.name i.path i.sha)), ?_, ?_, ?_⟩, by decide⟩
  · simp [list_files]
  · exact List.perm_insertionSort recordLe _
  · exact List.sorted_insertionSort recordLe _

/-- Claim C8 counterexample: the code has no distinct not_found kind: a
404 from the remote yields the very same generic failure message as a
500, distinguished only by the propagated status code. -/
theorem claim_C8_counterexample :
    (get_file true "u" "r" "main" "p.md" 404 ⟨""⟩).1 =
        .error "Failed to fetch file content" 404 ∧
    (get_file true "u" "r" "main" "p.md" 500 ⟨""⟩).1 =
        .error "Failed to fetch file content" 500 := by
  exact ⟨rfl, rfl⟩

/-- Claim C8 (amended): readFile performs a single GET of the contents
endpoint and on 200 returns the content base64-decoded as UTF-8 text; on
any non-200 status, 404 included, it returns the one generic failure
Failed to fetch file content carrying the remote status code (there is
no distinct not_found kind). -/
theorem claim_C8_read_file (user repo branch filepath : String) (status : Nat)
    (body : FileBody) :
    (get_file true user repo branch filepath status body).2 =
      [HttpCall.get ("https://api.github.com/repos/" ++ user ++ "/" ++ repo ++
        "/contents/" ++ filepath ++ "?ref=" ++ branch)] ∧
    (status = 200 →
      (get_file true user repo branch filepath status body).1 =
        match b64DecodeUtf8 body.content with
        | some c => .ok c
        | none => .decodeFailure) ∧
    (status ≠ 200 →
      (get_file true user repo branch filepath status body).1 =
        .error "Failed to fetch file content" status) := by
  refine ⟨?_, ?_, ?_⟩
  · by_cases h : status = 200
    · subst h
      simp only [get_file]
      rw [if_neg (by decide : ¬ (true = false)), if_neg (by decide : ¬ ((200 : Nat) ≠ 200))]
      split <;> rfl
    · simp [get_file, h]
  · intro h
    subst h
    simp only [get_file]
    rw [if_neg (by decide : ¬ (true = false)), if_neg (by decide : ¬ ((200 : Nat) ≠ 200))]
    split <;> simp_all
  · intro h
    simp [get_file, h]

/-- Claim C8 witness: a 200 with base64 aGVsbG8= decodes to hello and a
404 yields the generic failure with status 404. -/
theorem claim_C8_witness :
    (get_file true "u" "r" "main" "p.md" 200 ⟨"aGVsbG8="⟩).1 = .ok "hello" ∧
    (get_file true "u" "r" "main" "p.md" 404 ⟨"aGVsbG8="⟩).1 =
      .error "Failed to fetch file content" 404 := by
  constructor
  · have h := (claim_C8_read_file "u" "r" "main" "p.md" 200 ⟨"aGVsbG8="⟩).2.1 rfl
    rw [h]
    decide
  · exact (claim_C8_read_file "u" "r" "main" "p.md" 404 ⟨"aGVsbG8="⟩).2.2 (by decide)

/-! ### Lemmas about the preflight checks and `manage_file` -/

theorem check_status_ok (t : String) (ht : t ≠ "") (r1 : HttpResp RateLimitCore)
    (h200 : r1.statusCode = 200) :
    check_github_api_status t (.resp r1) =
      (.ok r1.body.remaining r1.body.limit r1.body.reset,
       [HttpCall.get "https://api.github.com/rate_limit"]) := by
  simp [check_github_api_status, ht, h200]

theorem repo_access_ok (u r t : String) (hu : u ≠ "") (hr : r ≠ "") (ht : t ≠ "")
    (r2 : HttpResp RepoBody) (h200 : r2.statusCode = 200) :
    test_github_repo_access u r t (.resp r2) =
      (.ok r2.body.fullName r2.body.pull r2.body.push r2.body.admin r2.body.defaultBranch,
       [HttpCall.get ("https://api.github.com/repos/" ++ u ++ "/" ++ r)]) := by
  simp [test_github_repo_access, hu, hr, ht, h200]

theorem check_calls_only_gets (t : String) (x : AttemptOutcome RateLimitCore) :
    ∀ c ∈ (check_github_api_status t x).2, c.isMutation = false := by
  intro c hc
  by_cases ht : t = "" <;> cases x <;>
    simp [check_github_api_status, ht] at hc <;>
    first
      | (subst hc; rfl)
      | (split at hc <;> (simp at hc; subst hc; rfl))

theorem repo_calls_only_gets (u r t : String) (x : AttemptOutcome RepoBody) :
    ∀ c ∈ (test_github_repo_access u r t x).2, c.isMutation = false := by
  intro c hc
  by_cases hur : u = "" ∨ r = ""
  · simp [test_github_repo_access, hur] at hc
  · by_cases ht : t = ""
    · simp [test_github_repo_access, hur, ht] at hc
    · cases x <;> simp [test_github_repo_access, hur, ht] at hc <;>
        first
          | (subst hc; rfl)
          | (split_ifs at hc <;> (simp at hc; subst hc; rfl))

theorem manage_file_pass_post {β : Type} (env : GhEnv β) (path : String)
    (sha : Option String) (content : String)
    (ha : env.isAdmin = true) (hu : env.config.user ≠ "") (hr : env.config.repo ≠ "")
    (ht : env.config.token ≠ "")
    (r1 : HttpResp RateLimitCore) (hrl : env.rateLimitT = .resp r1) (h200a : r1.statusCode = 200)
    (hrem : ¬ r1.body.remaining < 10)
    (r2 : HttpResp RepoBody) (hrp : env.repoT = .resp r2) (h200b : r2.statusCode = 200)
    (hpush : r2.body.push = true) :
    manage_file env .post path sha content =
      (handleResult (github_api_request_with_retry 3 2 env.now env.mutOutcomes).result,
       [HttpCall.get "https://api.github.com/rate_limit",
        HttpCall.get ("https://api.github.com/repos/" ++ env.config.user ++ "/" ++
          env.config.repo)] ++
       List.replicate (github_api_request_with_retry 3 2 env.now env.mutOutcomes).attemptsMade
         (HttpCall.put ("https://api.github.com/repos/" ++ env.config.user ++ "/" ++
             env.config.repo ++ "/contents/" ++ path)
           { message := "docs: update " ++ path,
             content := b64EncodeUtf8 content,
             branch := env.config.branch,
             sha := if truthy sha then sha else none })) := by
  have hchk := check_status_ok env.config.token ht r1 h200a
  have hacc := repo_access_ok env.config.user env.config.repo env.config.token hu hr ht r2 h200b
  have hnur : ¬ (env.config.user = "" ∨ env.config.repo = "") := not_or.mpr ⟨hu, hr⟩
  simp [manage_file, ha, hnur, ht, hrl, hrp, hchk, hacc, hrem, hpush]

theorem manage_file_pass_delete_nosha {β : Type} (env : GhEnv β) (path : String)
    (sha : Option String) (content : String)
    (ha : env.isAdmin = true) (hu : env.config.user ≠ "") (hr : env.config.repo ≠ "")
    (ht : env.config.token ≠ "")
    (r1 : HttpResp RateLimitCore) (hrl : env.rateLimitT = .resp r1) (h200a : r1.statusCode = 200)
    (hrem : ¬ r1.body.remaining < 10)
    (r2 : HttpResp RepoBody) (hrp : env.repoT = .resp r2) (h200b : r2.statusCode = 200)
    (hpush : r2.body.push = true) (hsha : truthy sha = false) :
    manage_file env .delete path sha content =
      ({ httpStatus := 400, errorField := some "SHA required",
         messageField := some "File SHA is required for deletion",
         suggestion := some "Refresh the file list and try again" },
       [HttpCall.get "https://api.github.com/rate_limit",
        HttpCall.get ("https://api.github.com/repos/" ++ env.config.user ++ "/" ++
          env.config.repo)]) := by
  have hchk := check_status_ok env.config.token ht r1 h200a
  have hacc := repo_access_ok env.config.user env.config.repo env.config.token hu hr ht r2 h200b
  have hnur : ¬ (env.config.user = "" ∨ env.config.repo = "") := not_or.mpr ⟨hu, hr⟩
  simp [manage_file, ha, hnur, ht, hrl, hrp, hchk, hacc, hrem, hpush, hsha]

theorem manage_file_pass_delete {β : Type} (env : GhEnv β) (path : String)
    (sha : Option String) (content : String)
    (ha : env.isAdmin = true) (hu : env.config.user ≠ "") (hr : env.config.repo ≠ "")
    (ht : env.config.token ≠ "")
    (r1 : HttpResp RateLimitCore) (hrl : env.rateLimitT = .resp r1) (h200a : r1.statusCode = 200)
    (hrem : ¬ r1.body.remaining < 10)
    (r2 : HttpResp RepoBody) (hrp : env.repoT = .resp r2) (h200b : r2.statusCode = 200)
    (hpush : r2.body.push = true) (hsha : truthy sha = true) :
    manage_file env .delete path sha content =
      (handleResult (github_api_request_with_retry 3 2 env.now env.mutOutcomes).result,
       [HttpCall.get "https://api.github.com/rate_limit",
        HttpCall.get ("https://api.github.com/repos/" ++ env.config.user ++ "/" ++
          env.config.repo)] ++
       List.replicate (github_api_request_with_retry 3 2 env.now env.mutOutcomes).attemptsMade
         (HttpCall.delete ("https://api.github.com/repos/" ++ env.config.user ++ "/" ++
             env.config.repo ++ "/contents/" ++ path)
           { message := "docs: delete " ++ path,
             sha := sha.getD "",
             branch := env.config.branch })) := by
  have hchk := check_status_ok env.config.token ht r1 h200a
  have hacc := repo_access_ok env.config.user env.config.repo env.config.token hu hr ht r2 h200b
  have hnur : ¬ (env.config.user = "" ∨ env.config.repo = "") := not_or.mpr ⟨hu, hr⟩
  simp [manage_file, ha, hnur, ht, hrl, hrp, hchk, hacc, hrem, hpush, hsha]

/-- The same-call preflight pass of `manage_file`: authenticated session,
complete configuration, healthy API status with at least 10 requests of
rate-limit budget left, and repository access with write permission. -/
def preflightPass {β : Type} (env : GhEnv β) : Prop :=
  env.isAdmin = true ∧ env.config.user ≠ "" ∧ env.config.repo ≠ "" ∧
  env.config.token ≠ "" ∧
  (∃ rem lim rst, (check_github_api_status env.config.token env.rateLimitT).1 =
      .ok rem lim rst ∧ ¬ rem < 10) ∧
  (∃ nm rd ad db, (test_github_repo_access env.config.user env.config.repo
      env.config.token env.repoT).1 = .ok nm rd true ad db)

theorem check_calls_shape (t : String) (ht : t ≠ "") (x : AttemptOutcome RateLimitCore) :
    (check_github_api_status t x).2 = [HttpCall.get "https://api.github.com/rate_limit"] := by
  cases x <;> simp [check_github_api_status, ht] <;> split <;> rfl

theorem repo_calls_shape (u r t : String) (hur : ¬ (u = "" ∨ r = "")) (ht : t ≠ "")
    (x : AttemptOutcome RepoBody) :
    (test_github_repo_access u r t x).2 =
      [HttpCall.get ("https://api.github.com/repos/" ++ u ++ "/" ++ r)] := by
  cases x <;> simp [test_github_repo_access, hur, ht] <;> split_ifs <;> rfl

theorem manage_file_trace_cases {β : Type} (env : GhEnv β) (method : MFMethod)
    (path : String) (sha : Option String) (content : String) :
    (∀ c ∈ (manage_file env method path sha content).2, c.isMutation = false) ∨
    (preflightPass env ∧
      (manage_file env method path sha content).2.take 2 =
        [HttpCall.get "https://api.github.com/rate_limit",
         HttpCall.get ("https://api.github.com/repos/" ++ env.config.user ++ "/" ++
           env.config.repo)]) := by
  by_cases ha : env.isAdmin = false
  · left; simp [manage_file, ha]
  · have ha' : env.isAdmin = true := by revert ha; cases env.isAdmin <;> simp
    by_cases hur : env.config.user = "" ∨ env.config.repo = ""
    · left; simp [manage_file, ha', hur]
    · by_cases ht : env.config.token = ""
      · left; simp [manage_file, ha', hur, ht]
      · rcases hchk : check_github_api_status env.config.token env.rateLimitT with ⟨st, calls1⟩
        have hcg : ∀ c ∈ calls1, HttpCall.isMutation c = false := by
          intro c hc
          exact check_calls_only_gets env.config.token env.rateLimitT c (by rw [hchk]; exact hc)
        cases st with
        | error msg =>
          left
          intro c hc
          simp [manage_file, ha', hur, ht, hchk] at hc
          exact hcg c hc
        | ok rem lim rst =>
          by_cases hrem : rem < 10
          · left
            intro c hc
            simp [manage_file, ha', hur, ht, hchk, hrem] at hc
            exact hcg c hc
          · rcases hacc : test_github_repo_access env.config.user env.config.repo
                env.config.token env.repoT with ⟨ra, calls2⟩
            have hrg : ∀ c ∈ calls2, HttpCall.isMutation c = false := by
              intro c hc
              exact repo_calls_only_gets env.config.user env.config.repo env.config.token
                env.repoT c (by rw [hacc]; exact hc)
            cases ra with
            | error msg =>
              left
              intro c hc
              simp [manage_file, ha', hur, ht, hchk, hrem, hacc] at hc
              rcases hc with hc | hc
              · exact hcg c hc
              · exact hrg c hc
            | ok nm rd wr ad db =>
              by_cases hw : wr = false
              · left
                intro c hc
                simp [manage_file, ha', hur, ht, hchk, hrem, hacc, hw] at hc
                rcases hc with hc | hc
                · exact hcg c hc
                · exact hrg c hc
              · have hw' : wr = true := by revert hw; cases wr <;> simp
                have hc1 : calls1 = [HttpCall.get "https://api.github.com/rate_limit"] := by
                  have h := check_calls_shape env.config.token ht env.rateLimitT
                  rw [hchk] at h; exact h
                have hc2 : calls2 =
                    [HttpCall.get ("https://api.github.com/repos/" ++ env.config.user ++ "/" ++
                      env.config.repo)] := by
                  have h := repo_calls_shape env.config.user env.config.repo env.config.token
                    hur ht env.repoT
                  rw [hacc] at h; exact h
                right
                refine ⟨⟨ha', (not_or.mp hur).1, (not_or.mp hur).2, ht,
                  ⟨rem, lim, rst, by rw [hchk], hrem⟩,
                  ⟨nm, rd, ad, db, by rw [hacc, hw']⟩⟩, ?_⟩
                subst hw'
                cases method with
                | post =>
                  simp [manage_file, ha', hur, ht, hchk, hrem, hacc, hc1, hc2]
                | delete =>
                  by_cases hsha : truthy sha = false
                  · simp [manage_file, ha', hur, ht, hchk, hrem, hacc, hc1, hc2, hsha]
                  · have hsha' : truthy sha = true := by revert hsha; cases truthy sha <;> simp
                    simp [manage_file, ha', hur, ht, hchk, hrem, hacc, hc1, hc2, hsha']

/-- Environment whose preflight passes (full quota, write access), with
the mutating request seeing the given transport outcomes. -/
def passEnv (mo : Nat → AttemptOutcome Nat) : GhEnv Nat :=
  { isAdmin := true,
    config := { user := "u", repo := "r", branch := "main", token := "tok" },
    rateLimitT := .resp { statusCode := 200,
                          body := { remaining := 5000, limit := 5000, reset := 0 } },
    repoT := .resp { statusCode := 200, body := { push := true } },
    mutOutcomes := mo,
    now := 0 }

/-- Environment whose health check reports remaining = 5 of limit 5000. -/
def lowQuotaEnv : GhEnv Nat :=
  { isAdmin := true,
    config := { user := "u", repo := "r", branch := "main", token := "tok" },
    rateLimitT := .resp { statusCode := 200,
                          body := { remaining := 5, limit := 5000, reset := 1700000000 } },
    repoT := .resp { statusCode := 200, body := { push := true } },
    mutOutcomes := fun _ => AttemptOutcome.timeout,
    now := 0 }

/-- Claim C5: for every mutation, a preflight health check reporting
remaining < 10 rate-limit budget makes the operation fail with the
rate-limit failure (HTTP 429, Rate limit nearly exceeded, carrying the
reset time as retry_after), even when the raw remaining quota is nonzero;
no mutating call is issued. -/
theorem claim_C5_preflight_margin {β : Type} (env : GhEnv β) (method : MFMethod)
    (path : String) (sha : Option String) (content : String)
    (ha : env.isAdmin = true) (hu : env.config.user ≠ "") (hr : env.config.repo ≠ "")
    (ht : env.config.token ≠ "")
    (r1 : HttpResp RateLimitCore) (hrl : env.rateLimitT = .resp r1)
    (h200 : r1.statusCode = 200) (hrem : r1.body.remaining < 10) :
    (manage_file env method path sha content) =
      ({ httpStatus := 429, errorField := some "Rate limit nearly exceeded",
         messageField := some ("Only " ++ toString r1.body.remaining ++
           " GitHub API requests remaining"),
         suggestion := some ("Rate limit resets at " ++ toString r1.body.reset),
         retryAfter := some r1.body.reset },
       [HttpCall.get "https://api.github.com/rate_limit"]) ∧
    ∀ c ∈ (manage_file env method path sha content).2, c.isMutation = false := by
  have hchk := check_status_ok env.config.token ht r1 h200
  have hnur : ¬ (env.config.user = "" ∨ env.config.repo = "") := not_or.mpr ⟨hu, hr⟩
  have heq : manage_file env method path sha content =
      ({ httpStatus := 429, errorField := some "Rate limit nearly exceeded",
         messageField := some ("Only " ++ toString r1.body.remaining ++
           " GitHub API requests remaining"),
         suggestion := some ("Rate limit resets at " ++ toString r1.body.reset),
         retryAfter := some r1.body.reset },
       [HttpCall.get "https://api.github.com/rate_limit"]) := by
    simp [manage_file, ha, hnur, ht, hrl, hchk, hrem]
  refine ⟨heq, ?_⟩
  rw [heq]
  intro c hc
  simp at hc
  subst hc
  rfl

/-- Claim C5 witness: preflight with remaining = 5 of limit 5000 rejects
a write with the 429 rate-limit failure and issues no mutating call. -/
theorem claim_C5_witness :
    (manage_file lowQuotaEnv .post "p.md" none "x").1.httpStatus = 429 ∧
    (manage_file lowQuotaEnv .post "p.md" none "x").1.errorField =
      some "Rate limit nearly exceeded" ∧
    (manage_file lowQuotaEnv .post "p.md" none "x").2 =
      [HttpCall.get "https://api.github.com/rate_limit"] := by
  have h := claim_C5_preflight_margin lowQuotaEnv .post "p.md" none "x" rfl
    (by decide) (by decide) (by decide)
    { statusCode := 200, body := { remaining := 5, limit := 5000, reset := 1700000000 } }
    rfl rfl (by decide)
  exact ⟨by rw [h.1], by rw [h.1], by rw [h.1]⟩

/-- Claim C6: no mutating request (PUT or DELETE) is ever sent without a
prior, same-call preflight pass: any mutation in the trace implies the
preflight predicate holds and the first two issued calls are the
preflight GETs; contrapositively, on preflight failure no mutation is in
the trace. -/
theorem claim_C6_preflight_before_mutation {β : Type} (env : GhEnv β) (method : MFMethod)
    (path : String) (sha : Option String) (content : String) :
    ∀ c ∈ (manage_file env method path sha content).2, c.isMutation = true →
      preflightPass env ∧
      (manage_file env method path sha content).2.take 2 =
        [HttpCall.get "https://api.github.com/rate_limit",
         HttpCall.get ("https://api.github.com/repos/" ++ env.config.user ++ "/" ++
           env.config.repo)] := by
  intro c hc hmut
  rcases manage_file_trace_cases env method path sha content with h | ⟨hp, htake⟩
  · rw [h c hc] at hmut
    cases hmut
  · exact ⟨hp, htake⟩

/-- Claim C6 witness: a passing environment issues its PUT only after
the two preflight GETs. -/
theorem claim_C6_witness :
    preflightPass (passEnv (fun _ => .resp { statusCode := 200, body := 7 })) ∧
    (manage_file (passEnv (fun _ => .resp { statusCode := 200, body := 7 }))
        .post "p.md" none "").2.take 2 =
      [HttpCall.get "https://api.github.com/rate_limit",
       HttpCall.get ("https://api.github.com/repos/" ++ "u" ++ "/" ++ "r")] := by
  exact claim_C6_preflight_before_mutation
    (passEnv (fun _ => .resp { statusCode := 200, body := 7 })) .post "p.md" none ""
    (HttpCall.put ("https://api.github.com/repos/" ++ "u" ++ "/" ++ "r" ++
        "/contents/" ++ "p.md")
      { message := "docs: update " ++ "p.md", content := b64EncodeUtf8 "",
        branch := "main", sha := none })
    (by decide) (by decide)

theorem github_single_409 {β : Type} (now : Int) (outcomes : Nat → AttemptOutcome β)
    (r3 : HttpResp β) (hmut : outcomes 0 = .resp r3) (h409 : r3.statusCode = 409) :
    github_api_request_with_retry 3 2 now outcomes =
      ⟨.failure
        { error := "api_error",
          message := r3.bodyMessage.getD ("GitHub API error: " ++ toString r3.statusCode),
          statusCode := some r3.statusCode }, 1, []⟩ := by
  have hstep : attemptStep 3 2 now 0 (outcomes 0) = .done (.failure
      { error := "api_error",
        message := r3.bodyMessage.getD ("GitHub API error: " ++ toString r3.statusCode),
        statusCode := some r3.statusCode }) := by
    rw [hmut]
    simp [attemptStep, h409]
  simp [github_api_request_with_retry, retryLoop, hstep]

/-- Claim C1 counterexample: a create-or-update rejected by the remote
with HTTP 409 surfaces with the generic kind api_error, not a distinct
conflict kind. -/
theorem claim_C1_counterexample :
    (manage_file (passEnv (fun _ => .resp
        { statusCode := 409, bodyMessage := some "p.md does not match", body := 0 }))
      .post "p.md" (some "oldsha") "x").1.errorField = some "api_error" ∧
    (manage_file (passEnv (fun _ => .resp
        { statusCode := 409, bodyMessage := some "p.md does not match", body := 0 }))
      .post "p.md" (some "oldsha") "x").1.errorField ≠ some "conflict" ∧
    (manage_file (passEnv (fun _ => .resp
        { statusCode := 409, bodyMessage := some "p.md does not match", body := 0 }))
      .post "p.md" (some "oldsha") "x").1.httpStatus = 409 := by
  exact ⟨rfl, by decide, rfl⟩

/-- Claim C1 (amended): a write with a stale checksum rejected by the
remote with HTTP 409 returns the failure kind api_error carrying status
code 409 and the conflict-specific suggestion, after exactly one PUT
attempt (409 is not retried); the store keeps no local file state, so
nothing local changes. -/
theorem claim_C1_conflict_as_api_error {β : Type} (env : GhEnv β) (path : String)
    (sha : Option String) (content : String)
    (ha : env.isAdmin = true) (hu : env.config.user ≠ "") (hr : env.config.repo ≠ "")
    (ht : env.config.token ≠ "")
    (r1 : HttpResp RateLimitCore) (hrl : env.rateLimitT = .resp r1)
    (h200a : r1.statusCode = 200) (hrem : ¬ r1.body.remaining < 10)
    (r2 : HttpResp RepoBody) (hrp : env.repoT = .resp r2) (h200b : r2.statusCode = 200)
    (hpush : r2.body.push = true)
    (r3 : HttpResp β) (hmut : env.mutOutcomes 0 = .resp r3) (h409 : r3.statusCode = 409) :
    (manage_file env .post path sha content).1 =
      { httpStatus := 409, errorField := some "api_error",
        messageField := some (r3.bodyMessage.getD
          ("GitHub API error: " ++ toString r3.statusCode)),
        suggestion := some "File conflict. Refresh and try again." } ∧
    (manage_file env .post path sha content).2 =
      [HttpCall.get "https://api.github.com/rate_limit",
       HttpCall.get ("https://api.github.com/repos/" ++ env.config.user ++ "/" ++
         env.config.repo),
       HttpCall.put ("https://api.github.com/repos/" ++ env.config.user ++ "/" ++
           env.config.repo ++ "/contents/" ++ path)
         { message := "docs: update " ++ path, content := b64EncodeUtf8 content,
           branch := env.config.branch, sha := if truthy sha then sha else none }] := by
  have hrun := github_single_409 env.now env.mutOutcomes r3 hmut h409
  have hmf := manage_file_pass_post env path sha content ha hu hr ht r1 hrl h200a hrem
    r2 hrp h200b hpush
  rw [hmf, hrun]
  constructor
  · simp [handleResult, h409]
  · rfl

/-- Claim C1 witness: the stale-checksum 409 run at a concrete passing
environment. -/
theorem claim_C1_witness :
    (manage_file (passEnv (fun _ => .resp
        { statusCode := 409, bodyMessage := some "stale", body := 0 }))
      .post "p.md" (some "oldsha") "x").1 =
      { httpStatus := 409, errorField := some "api_error",
        messageField := some "stale",
        suggestion := some "File conflict. Refresh and try again." } := by
  have h := claim_C1_conflict_as_api_error
    (passEnv (fun _ => .resp { statusCode := 409, bodyMessage := some "stale", body := 0 }))
    "p.md" (some "oldsha") "x" rfl (by decide) (by decide) (by decide)
    { statusCode := 200, body := { remaining := 5000, limit := 5000, reset := 0 } }
    rfl rfl (by decide)
    { statusCode := 200, body := { push := true } } rfl rfl rfl
    { statusCode := 409, bodyMessage := some "stale", body := 0 } rfl rfl
  rw [h.1]
  rfl

/-- Claim C2 counterexample: a delete with absent checksum does return
the SHA-required failure, but only after the two preflight GETs have
been issued: the transport sees two HTTP calls, not zero. -/
theorem claim_C2_counterexample :
    (manage_file (passEnv (fun _ => AttemptOutcome.timeout))
      .delete "p.md" none "").1.errorField = some "SHA required" ∧
    (manage_file (passEnv (fun _ => AttemptOutcome.timeout)) .delete "p.md" none "").2 =
      [HttpCall.get "https://api.github.com/rate_limit",
       HttpCall.get ("https://api.github.com/repos/" ++ "u" ++ "/" ++ "r")] ∧
    (manage_file (passEnv (fun _ => AttemptOutcome.timeout)) .delete "p.md" none "").2 ≠
      [] := by
  exact ⟨rfl, rfl, by decide⟩

/-- Claim C2 (amended): deleteFile with an absent (or empty) checksum
returns the SHA-required failure (HTTP 400) and never sends a mutating
request, but the same-call preflight runs first, so the two preflight
GETs are issued before the local rejection. -/
theorem claim_C2_delete_requires_sha {β : Type} (env : GhEnv β) (path : String)
    (sha : Option String) (content : String)
    (ha : env.isAdmin = true) (hu : env.config.user ≠ "") (hr : env.config.repo ≠ "")
    (ht : env.config.token ≠ "")
    (r1 : HttpResp RateLimitCore) (hrl : env.rateLimitT = .resp r1)
    (h200a : r1.statusCode = 200) (hrem : ¬ r1.body.remaining < 10)
    (r2 : HttpResp RepoBody) (hrp : env.repoT = .resp r2) (h200b : r2.statusCode = 200)
    (hpush : r2.body.push = true) (hsha : truthy sha = false) :
    (manage_file env .delete path sha content).1 =
      { httpStatus := 400, errorField := some "SHA required",
        messageField := some "File SHA is required for deletion",
        suggestion := some "Refresh the file list and try again" } ∧
    (manage_file env .delete path sha content).2 =
      [HttpCall.get "https://api.github.com/rate_limit",
       HttpCall.get ("https://api.github.com/repos/" ++ env.config.user ++ "/" ++
         env.config.repo)] ∧
    ∀ c ∈ (manage_file env .delete path sha content).2, c.isMutation = false := by
  have h := manage_file_pass_delete_nosha env path sha content ha hu hr ht r1 hrl h200a hrem
    r2 hrp h200b hpush hsha
  refine ⟨by rw [h], by rw [h], ?_⟩
  rw [h]
  intro c hc
  simp at hc
  rcases hc with hc | hc <;> (subst hc; rfl)

/-- Claim C2 witness: the concrete delete-without-checksum run at a
passing environment. -/
theorem claim_C2_witness :
    (manage_file (passEnv (fun _ => AttemptOutcome.timeout))
      .delete "p.md" none "").1.httpStatus = 400 ∧
    (manage_file (passEnv (fun _ => AttemptOutcome.timeout))
      .delete "p.md" none "").1.errorField = some "SHA required" := by
  have h := claim_C2_delete_requires_sha (passEnv (fun _ => AttemptOutcome.timeout))
    "p.md" none "" rfl (by decide) (by decide) (by decide)
    { statusCode := 200, body := { remaining := 5000, limit := 5000, reset := 0 } }
    rfl rfl (by decide)
    { statusCode := 200, body := { push := true } } rfl rfl rfl rfl
  exact ⟨by rw [h.1], by rw [h.1]⟩

theorem retryLoop_attempts_pos {β : Type} (m b : Nat) (now : Int)
    (outcomes : Nat → AttemptOutcome β) :
    ∀ fuel attempt, 1 ≤ fuel → 1 ≤ (retryLoop m b now outcomes fuel attempt).2.1 := by
  intro fuel attempt hf
  cases fuel with
  | zero => omega
  | succ fuel =>
    cases hstep : attemptStep m b now attempt (outcomes attempt) with
    | done r => simp [retryLoop, hstep]
    | retryAfterSleep w => simp [retryLoop, hstep]

theorem github_attempts_pos {β : Type} (m b : Nat) (now : Int)
    (outcomes : Nat → AttemptOutcome β) (hm : 1 ≤ m) :
    1 ≤ (github_api_request_with_retry m b now outcomes).attemptsMade := by
  have hp := retryLoop_attempts_pos m b now outcomes m 0 hm
  rcases hq : retryLoop m b now outcomes m 0 with ⟨res, n, s⟩
  rw [hq] at hp
  cases res with
  | none => simpa [github_api_request_with_retry, hq] using hp
  | some r => simpa [github_api_request_with_retry, hq] using hp

/-- Claim C9: under a passing preflight, the write sends a PUT whose
payload synthesizes the commit message docs: update path, includes the
checksum exactly when a (nonempty) checksum was supplied and omits it
when absent, and at least one PUT is sent. -/
theorem claim_C9_put_payload {β : Type} (env : GhEnv β) (path : String)
    (sha : Option String) (content : String)
    (ha : env.isAdmin = true) (hu : env.config.user ≠ "") (hr : env.config.repo ≠ "")
    (ht : env.config.token ≠ "")
    (r1 : HttpResp RateLimitCore) (hrl : env.rateLimitT = .resp r1)
    (h200a : r1.statusCode = 200) (hrem : ¬ r1.body.remaining < 10)
    (r2 : HttpResp RepoBody) (hrp : env.repoT = .resp r2) (h200b : r2.statusCode = 200)
    (hpush : r2.body.push = true) :
    (manage_file env .post path sha content).2 =
      [HttpCall.get "https://api.github.com/rate_limit",
       HttpCall.get ("https://api.github.com/repos/" ++ env.config.user ++ "/" ++
         env.config.repo)] ++
      List.replicate (github_api_request_with_retry 3 2 env.now env.mutOutcomes).attemptsMade
        (HttpCall.put ("https://api.github.com/repos/" ++ env.config.user ++ "/" ++
            env.config.repo ++ "/contents/" ++ path)
          { message := "docs: update " ++ path, content := b64EncodeUtf8 content,
            branch := env.config.branch, sha := if truthy sha then sha else none }) ∧
    1 ≤ (github_api_request_with_retry 3 2 env.now env.mutOutcomes).attemptsMade ∧
    (sha = none → (if truthy sha then sha else none) = none) ∧
    (∀ s, sha = some s → s ≠ "" → (if truthy sha then sha else none) = some s) := by
  have hmf := manage_file_pass_post env path sha content ha hu hr ht r1 hrl h200a hrem
    r2 hrp h200b hpush
  refine ⟨by rw [hmf], github_attempts_pos 3 2 env.now env.mutOutcomes (by omega), ?_, ?_⟩
  · intro h
    subst h
    rfl
  · intro s hs hne
    subst hs
    simp [truthy, hne]

/-- Claim C9 witness: a concrete update with checksum abc sends one PUT
with message docs: update p.md and sha abc. -/
theorem claim_C9_witness :
    (manage_file (passEnv (fun _ => .resp { statusCode := 200, body := 7 }))
        .post "p.md" (some "abc") "hi").2 =
      [HttpCall.get "https://api.github.com/rate_limit",
       HttpCall.get ("https://api.github.com/repos/" ++ "u" ++ "/" ++ "r"),
       HttpCall.put ("https://api.github.com/repos/" ++ "u" ++ "/" ++ "r" ++
           "/contents/" ++ "p.md")
         { message := "docs: update " ++ "p.md", content := b64EncodeUtf8 "hi",
           branch := "main", sha := some "abc" }] := by
  have h := claim_C9_put_payload
    (passEnv (fun _ => .resp { statusCode := 200, body := 7 }))
    "p.md" (some "abc") "hi" rfl (by decide) (by decide) (by decide)
    { statusCode := 200, body := { remaining := 5000, limit := 5000, reset := 0 } }
    rfl rfl (by decide)
    { statusCode := 200, body := { push := true } } rfl rfl rfl
  rw [h.1]
  decide

end Blogmaker
